import Mathlib

/-!
Verification of the Telephony WebSocket SDK client (telephony/go/client.go).

The Go client is shallowly embedded: JSON values become an inductive `GoVal`,
the client struct becomes `ClientState` (the `map[string]*Call` registry is a
partial map from keys to heap references plus an explicit heap, reflecting the
pointer semantics of the Go map values), and each method becomes a pure
function on `ClientState`.  Transport interaction is abstracted by a
`CmdOutcome` parameter describing what `sendCommand` observed.
-/

namespace Telephony

/-- Go interface values produced by json.Unmarshal into map[string]interface. -/
inductive GoVal where
  | str : String → GoVal
  | boolean : Bool → GoVal
  | num : Int → GoVal
  | obj : List (String × GoVal) → GoVal
  | null : GoVal

/-- A decoded JSON object, as Go's map[string]interface. -/
abbrev GoMap := List (String × GoVal)

/-- Go map lookup m[k] (first binding wins; Go maps have unique keys). -/
def lookupGo : GoMap → String → Option GoVal
  | [], _ => none
  | (k, v) :: rest, key => if k = key then v else lookupGo rest key

/-- The Go idiom s, underscore := m[k].(string): empty string on failure. -/
def getStr (m : GoMap) (k : String) : String :=
  match lookupGo m k with
  | some (GoVal.str s) => s
  | _ => ""

/-- The Go idiom s, ok := m[k].(string). -/
def getStrOk (m : GoMap) (k : String) : Option String :=
  match lookupGo m k with
  | some (GoVal.str s) => some s
  | _ => none

/-- The Go idiom b, underscore := m[k].(bool): false on failure. -/
def getBool (m : GoMap) (k : String) : Bool :=
  match lookupGo m k with
  | some (GoVal.boolean b) => b
  | _ => false

/-- The Go idiom d, underscore := m[k].(map[string]interface): nil on failure. -/
def getObj (m : GoMap) (k : String) : Option GoMap :=
  match lookupGo m k with
  | some (GoVal.obj d) => some d
  | _ => none

/-- Call mirrors the Go struct Call: the state of a SIP call. -/
structure Call where
  CallID : String := ""
  State : String := ""
  Direction : String := ""
  From : String := ""
  To : String := ""
  Channel : String := ""
  UID : String := ""
  AppID : String := ""
deriving DecidableEq

/-- The event handler, abstracted to the data the client observes of it:
what OnCallIncoming returns, and whether the DTMFHandler interface is
implemented. -/
structure HandlerSpec where
  claimIncoming : Bool
  hasDTMF : Bool
deriving DecidableEq

/-- Contents of a pending-response channel buffer (capacity one).  The outer
Option is buffer occupancy; the inner Option distinguishes a nil map (the
null resolution) from a real response. -/
abbrev PendBuf := Option (Option GoMap)

/-- ClientState embeds the mutable fields of the Go Client struct.  The Go
registry map[string]*Call is split into a key-to-reference map `calls` and a
heap of Call records, so that pointer aliasing is representable. -/
structure ClientState where
  calls : String → Option Nat
  heap : Nat → Call
  nextRef : Nat
  handler : Option HandlerSpec
  connected : Bool
  doneClosed : Bool
  pending : List (String × PendBuf)
  nextReqID : Nat
  conn : Bool

/-- Pointwise update of the registry map. -/
def rupd (f : String → Option Nat) (k : String) (v : Option Nat) : String → Option Nat :=
  fun q => if q = k then v else f q

/-- Pointwise update of the heap. -/
def hupd (f : Nat → Call) (r : Nat) (c : Call) : Nat → Call :=
  fun q => if q = r then c else f q

/-- NewClient: zero-valued registry, counters and flags. -/
def NewClient : ClientState :=
  { calls := fun _ => none
    heap := fun _ => {}
    nextRef := 0
    handler := none
    connected := false
    doneClosed := false
    pending := []
    nextReqID := 0
    conn := false }

/-- The connection-lost sweep shared by readLoop's deferred block and Close:
for every pending entry, a non-blocking send of nil into its buffered channel
(dropped when the buffer is already full), and the entry is deleted from the
table.  The result is the final buffer contents of the swept channels. -/
def sweepPending (pending : List (String × PendBuf)) : List (String × PendBuf) :=
  pending.map (fun p => (p.1, match p.2 with
    | none => some none
    | some v => some v))

/-- The deferred block at the top of readLoop, run when the loop exits:
clear the connected flag, sweep the pending table.  Returns the new state
and the swept channel buffers. -/
def readLoopExit (s : ClientState) : ClientState × List (String × PendBuf) :=
  ({ s with connected := false, pending := [] }, sweepPending s.pending)

/-- The receive at the end of sendCommand: a nil response means the
connection was torn down while the command was outstanding. -/
def sendCommandResolve (resp : Option GoMap) : Except String GoMap :=
  match resp with
  | none => Except.error "connection lost"
  | some r => Except.ok r

/-- What one invocation of Close produces. -/
structure CloseResult where
  state : ClientState
  err : Option String
  closedDone : Bool
  drained : List (String × PendBuf)

/-- Close: store false into the connected flag, close the done channel
unless already closed, sweep the pending table, nil out and close the
transport.  connCloseErr is the error returned by conn.Close(). -/
def Close (s : ClientState) (connCloseErr : Option String) : CloseResult :=
  { state := { s with connected := false, doneClosed := true, pending := [], conn := false }
    err := if s.conn then connCloseErr else none
    closedDone := !s.doneClosed
    drained := sweepPending s.pending }

/-- N successive invocations of Close, with connection-close errors drawn
from the stream es; collects each invocation's returned error and whether it
closed the done channel. -/
def closeRuns (es : Nat → Option String) : Nat → ClientState → ClientState × List (Option String × Bool)
  | 0, s => (s, [])
  | n + 1, s =>
    let r := Close s (es 0)
    let rest := closeRuns (fun i => es (i + 1)) n r.state
    (rest.1, (r.err, r.closedDone) :: rest.2)

/-- The modulus of Go's atomic.Uint64 counter. -/
def W64 : Nat := 2 ^ 64

/-- Request-id generation in sendCommand:
fmt.Sprintf with format string joining action, an underscore and the
decimal rendering of c.nextReqID.Add(1). -/
def mkReqID (action : String) (n : Nat) : String :=
  action ++ "_" ++ Nat.repr n

/-- The request ids produced by a session issuing the given actions in order,
starting from counter value ctr.  Add(1) on the atomic uint64 returns the
incremented value, wrapping modulo 2^64. -/
def issueIds : Nat → List String → List String
  | _, [] => []
  | ctr, a :: rest =>
    mkReqID a ((ctr + 1) % W64) :: issueIds ((ctr + 1) % W64) rest

/-- Structural decimal rendering used to characterise Nat.repr. -/
def decChars (n : Nat) : List Char :=
  if h : n < 10 then [Nat.digitChar n]
  else decChars (n / 10) ++ [Nat.digitChar (n % 10)]
decreasing_by exact Nat.div_lt_self (by omega) (by omega)

/-- An effective registry mutation: an insertion adds an absent key, a
deletion removes a present key. -/
inductive RegOp where
  | ins (key : String)
  | del (key : String)
deriving DecidableEq

/-- Handler callback invocations, in order, with the Call passed. -/
inductive CB where
  | onConnected (sessionID : String)
  | onCallIncoming (call : Call)
  | onCallRinging (call : Call)
  | onCallAnswered (call : Call)
  | onBridgeStart (call : Call)
  | onBridgeEnd (call : Call)
  | onCallHangup (call : Call)
  | onDTMFReceived (call : Call) (digits : String)
  | onError (msg : String)
deriving DecidableEq

/-- Count of effective insertions in a registry-operation trace. -/
def countIns (ops : List RegOp) : Nat :=
  (ops.filter (fun op => match op with | RegOp.ins _ => true | _ => false)).length

/-- Count of effective deletions in a registry-operation trace. -/
def countDel (ops : List RegOp) : Nat :=
  (ops.filter (fun op => match op with | RegOp.del _ => true | _ => false)).length

/-- Registry store c.calls at a key, recording an effective insertion. -/
def regSet (s : ClientState) (key : String) (ref : Nat) : ClientState × List RegOp :=
  ({ s with calls := rupd s.calls key (some ref) },
   if s.calls key = none then [RegOp.ins key] else [])

/-- Go's builtin delete on c.calls, recording an effective deletion. -/
def regDel (s : ClientState) (key : String) : ClientState × List RegOp :=
  ({ s with calls := rupd s.calls key none },
   if s.calls key = none then [] else [RegOp.del key])

/-- Lines 745-763 of handleEvent: find the call record by callid, falling
back to the channel:uid composite key, creating (and registering) a fresh
record when absent and the callid is non-empty. -/
def findOrCreate (s : ClientState) (callid channel uid : String) :
    ClientState × Option Nat × List RegOp :=
  match s.calls callid with
  | some r => (s, some r, [])
  | none =>
    match (if channel ≠ "" ∧ uid ≠ "" then s.calls (channel ++ ":" ++ uid) else none) with
    | some r => (s, some r, [])
    | none =>
      if callid ≠ "" then
        let r := s.nextRef
        let s1 := { s with
          heap := hupd s.heap r { CallID := callid, Channel := channel, UID := uid }
          nextRef := r + 1 }
        let step := regSet s1 callid r
        (step.1, some r, step.2)
      else (s, none, [])

/-- Lines 766-786 of handleEvent: update all non-empty fields carried by the
event into the record. -/
def updCallFields (c : Call) (msg : GoMap) (channel uid callid : String) : Call :=
  let c1 := if channel ≠ "" then { c with Channel := channel } else c
  let c2 := if uid ≠ "" then { c1 with UID := uid } else c1
  let c3 := if callid ≠ "" then { c2 with CallID := callid } else c2
  let c4 := match getStrOk msg "from" with
    | some f => if f ≠ "" then { c3 with From := f } else c3
    | none => c3
  let c5 := match getStrOk msg "to" with
    | some t => if t ≠ "" then { c4 with To := t } else c4
    | none => c4
  let c6 := match getStrOk msg "direction" with
    | some d => if d ≠ "" then { c5 with Direction := d } else c5
    | none => c5
  match getStrOk msg "appid" with
    | some a => if a ≠ "" then { c6 with AppID := a } else c6
    | none => c6

/-- Lines 790-837 of handleEvent: the event-type switch.  State transitions
happen under the write lock; the handler callback runs outside it and is
recorded in the trace with the record it is passed. -/
def dispatchEvent (s : ClientState) (h : HandlerSpec) (r : Nat)
    (eventType callid : String) (msg : GoMap) : ClientState × List CB × List RegOp :=
  match eventType with
  | "call_incoming" =>
    let c := { s.heap r with State := "incoming", Direction := "inbound" }
    let s1 := { s with heap := hupd s.heap r c }
    if h.claimIncoming then (s1, [CB.onCallIncoming c], [])
    else
      let step := regDel s1 callid
      (step.1, [CB.onCallIncoming c], step.2)
  | "call_ringing" =>
    let c := { s.heap r with State := "ringing" }
    ({ s with heap := hupd s.heap r c }, [CB.onCallRinging c], [])
  | "call_answered" =>
    let c := { s.heap r with State := "answered" }
    ({ s with heap := hupd s.heap r c }, [CB.onCallAnswered c], [])
  | "agora_bridge_start" =>
    let c := { s.heap r with State := "bridged" }
    ({ s with heap := hupd s.heap r c }, [CB.onBridgeStart c], [])
  | "agora_bridge_end" =>
    let c := { s.heap r with State := "unbridged" }
    ({ s with heap := hupd s.heap r c }, [CB.onBridgeEnd c], [])
  | "call_hangup" =>
    let c := { s.heap r with State := "hangup" }
    let s1 := { s with heap := hupd s.heap r c }
    let step1 := regDel s1 callid
    let step2 :=
      if c.Channel ≠ "" ∧ c.UID ≠ "" then regDel step1.1 (c.Channel ++ ":" ++ c.UID)
      else (step1.1, [])
    (step2.1, [CB.onCallHangup c], step1.2 ++ step2.2)
  | "dtmf_received" =>
    let digits := getStr msg "digits"
    if h.hasDTMF then (s, [CB.onDTMFReceived (s.heap r) digits], [])
    else (s, [], [])
  | _ => (s, [], [])

/-- handleEvent (lines 733-837): dispatch an inbound event frame.  Returns
the new state, the handler callbacks invoked (in order) and the effective
registry mutations performed. -/
def handleEvent (s : ClientState) (msg : GoMap) : ClientState × List CB × List RegOp :=
  match s.handler with
  | none => (s, [], [])
  | some h =>
    let eventType := getStr msg "event"
    let callid := getStr msg "callid"
    let channel := getStr msg "channel"
    let uid := getStr msg "uid"
    let fc := findOrCreate s callid channel uid
    match fc.2.1 with
    | none => (s, [], [])
    | some r =>
      let s1 := fc.1
      let c1 := updCallFields (s1.heap r) msg channel uid callid
      let s2 := { s1 with heap := hupd s1.heap r c1 }
      let d := dispatchEvent s2 h r eventType callid msg
      (d.1, d.2.1, fc.2.2 ++ d.2.2)

/-- DialParams mirrors the Go struct. -/
structure DialParams where
  To : String := ""
  From : String := ""
  Channel : String := ""
  UID : String := ""
  Token : String := ""
  Region : String := ""
  Timeout : String := ""
  Sip : String := ""
  SipDomain : String := ""
  AppID : String := ""

/-- DialResult mirrors the Go struct. -/
structure DialResult where
  Success : Bool
  CallID : String
  Data : GoMap

/-- What sendCommand observed for a command: a send/context/timeout error, a
nil response (connection lost), or a reply frame. -/
inductive CmdOutcome where
  | sendErr (e : String)
  | lost
  | reply (resp : GoMap)

/-- The outbound command frame built by Dial (lines 300-318). -/
def dialMsg (params : DialParams) : GoMap :=
  [("action", GoVal.str "outbound"), ("to", GoVal.str params.To),
   ("from", GoVal.str params.From), ("channel", GoVal.str params.Channel),
   ("uid", GoVal.str params.UID), ("token", GoVal.str params.Token),
   ("region", GoVal.str params.Region), ("timeout", GoVal.str params.Timeout)]
  ++ (if params.Sip ≠ "" then [("sip", GoVal.str params.Sip)] else [])
  ++ (if params.SipDomain ≠ "" then [("sip_domain", GoVal.str params.SipDomain)] else [])
  ++ (if params.AppID ≠ "" then [("appid", GoVal.str params.AppID)] else [])

/-- The provisional registry key used by Dial. -/
def dialChanKey (params : DialParams) : String :=
  params.Channel ++ ":" ++ params.UID

/-- Pre-track the call by channel:uid (lines 320-332). -/
def dialPreInsert (s : ClientState) (params : DialParams) : ClientState :=
  { s with
    heap := hupd s.heap s.nextRef
      { State := "ringing", Direction := "outbound", To := params.To,
        From := params.From, Channel := params.Channel, UID := params.UID,
        AppID := params.AppID }
    nextRef := s.nextRef + 1
    calls := rupd s.calls (dialChanKey params) (some s.nextRef) }

/-- Extraction of data.callid from a dial reply (lines 352-356). -/
def dialRespCallID (resp : GoMap) : String :=
  match getObj resp "data" with
  | some data => getStr data "callid"
  | none => ""

/-- Extraction of data.success from a dial reply (lines 352-356). -/
def dialRespSuccess (resp : GoMap) : Bool :=
  match getObj resp "data" with
  | some data => getBool data "success"
  | none => false

/-- Dial (lines 299-372): pre-insert the provisional record, send, then on a
reply promote the record to the durable callid key; in every exit path the
provisional chanKey entry is removed. -/
def Dial (s : ClientState) (params : DialParams) (outcome : CmdOutcome) :
    ClientState × Except String DialResult :=
  let chanKey := dialChanKey params
  let s1 := dialPreInsert s params
  match outcome with
  | CmdOutcome.sendErr e =>
    ({ s1 with calls := rupd s1.calls chanKey none }, Except.error e)
  | CmdOutcome.lost =>
    ({ s1 with calls := rupd s1.calls chanKey none }, Except.error "connection lost")
  | CmdOutcome.reply resp =>
    let callID := dialRespCallID resp
    let s2 :=
      if callID ≠ "" then
        match s1.calls chanKey with
        | some ref =>
          { s1 with heap := hupd s1.heap ref { s1.heap ref with CallID := callID }
                    calls := rupd s1.calls callID (some ref) }
        | none => s1
      else s1
    ({ s2 with calls := rupd s2.calls chanKey none },
     Except.ok { Success := dialRespSuccess resp, CallID := callID, Data := resp })

/-- The wire action chosen by Hangup (lines 501-504): endcall for an
outbound call, hangup otherwise. -/
def hangupAction (s : ClientState) (callid : String) : String :=
  match s.calls callid with
  | some ref => if (s.heap ref).Direction = "outbound" then "endcall" else "hangup"
  | none => "hangup"

/-- The command frame built by Hangup (lines 506-512). -/
def hangupMsg (s : ClientState) (callid : String) : GoMap :=
  [("action", GoVal.str (hangupAction s callid)), ("callid", GoVal.str callid)]
  ++ (match s.calls callid with
      | some ref =>
        if (s.heap ref).AppID ≠ "" then [("appid", GoVal.str (s.heap ref).AppID)] else []
      | none => [])

/-- Hangup (lines 496-530): send the frame; surface errors leaving the
record in place; on success delete the record. -/
def Hangup (s : ClientState) (callid : String) (outcome : CmdOutcome) :
    ClientState × Option String :=
  match outcome with
  | CmdOutcome.sendErr e => (s, some e)
  | CmdOutcome.lost => (s, some "connection lost")
  | CmdOutcome.reply resp =>
    match getStrOk resp "error" with
    | some errMsg => (s, some errMsg)
    | none => ({ s with calls := rupd s.calls callid none }, none)

/-- No two registry keys alias the same record: outside the lock-held
critical sections each Call record is reachable under at most one key. -/
def UniqueRef (s : ClientState) : Prop :=
  ∀ k₁ k₂ r, s.calls k₁ = some r → s.calls k₂ = some r → k₁ = k₂

/-- Every registered reference was allocated. -/
def RefsBounded (s : ClientState) : Prop :=
  ∀ k r, s.calls k = some r → r < s.nextRef

/-- The registry never contains an entry in state hangup. -/
def NoHangup (s : ClientState) : Prop :=
  ∀ k r, s.calls k = some r → (s.heap r).State ≠ "hangup"

/-- A registered outbound call, used in concrete instantiations. -/
def sampleCallC1 : Call :=
  { CallID := "C1", State := "answered", Direction := "outbound",
    From := "+15551234567", To := "+18005551234", Channel := "ch1", UID := "100" }

/-- A client holding sampleCallC1 under its durable key, with a handler. -/
def sampleClient : ClientState :=
  { NewClient with
    calls := rupd NewClient.calls "C1" (some 0)
    heap := hupd NewClient.heap 0 sampleCallC1
    nextRef := 1
    handler := some { claimIncoming := true, hasDTMF := false } }

/-- An empty client whose handler declines incoming calls. -/
def sampleClientNoClaim : ClientState :=
  { NewClient with handler := some { claimIncoming := false, hasDTMF := false } }

/-- A call_ringing event frame that carries a direction field. -/
def ringingInboundMsg : GoMap :=
  [("event", GoVal.str "call_ringing"), ("callid", GoVal.str "C1"),
   ("direction", GoVal.str "inbound")]

/-- A call_hangup event frame for a call id that is not registered. -/
def hangupUnknownMsg : GoMap :=
  [("event", GoVal.str "call_hangup"), ("callid", GoVal.str "X")]

/-- A call_incoming event frame. -/
def incomingMsg : GoMap :=
  [("event", GoVal.str "call_incoming"), ("callid", GoVal.str "C2"),
   ("from", GoVal.str "+15551234567"), ("to", GoVal.str "+18005551234")]

/-- A call_hangup event frame for the registered call C1. -/
def hangupC1Msg : GoMap :=
  [("event", GoVal.str "call_hangup"), ("callid", GoVal.str "C1")]

/-- Concrete dial parameters. -/
def sampleDialParams : DialParams :=
  { To := "+18005551234", From := "+15551234567", Channel := "ch1", UID := "100",
    Token := "T", Region := "AREA_CODE_NA", Timeout := "60" }

/-- A successful dial reply carrying a call id. -/
def dialReplyOK : GoMap :=
  [("request_id", GoVal.str "outbound_1"),
   ("data", GoVal.obj [("success", GoVal.boolean true), ("callid", GoVal.str "CA")])]

/-- A successful hangup reply (no error string). -/
def hangupReplyOK : GoMap :=
  [("request_id", GoVal.str "endcall_1"), ("data", GoVal.obj [])]

/-- A connected client with one blocked pending command. -/
def sampleLiveClient : ClientState :=
  { NewClient with connected := true, conn := true, pending := [("outbound_1", none)] }

@[simp] theorem rupd_same (f : String → Option Nat) (k : String) (v : Option Nat) :
    rupd f k v k = v := by simp [rupd]

@[simp] theorem rupd_other (f : String → Option Nat) (k q : String) (v : Option Nat)
    (h : q ≠ k) : rupd f k v q = f q := by simp [rupd, h]

@[simp] theorem hupd_same (f : Nat → Call) (r : Nat) (c : Call) :
    hupd f r c r = c := by simp [hupd]

@[simp] theorem hupd_other (f : Nat → Call) (r q : Nat) (c : Call)
    (h : q ≠ r) : hupd f r c q = f q := by simp [hupd, h]

/-- Claim C1: when the connection transitions from connected to disconnected
(read-loop exit or explicit Close), the sweep leaves the pending table empty,
and every waiter blocked in sendCommand (an entry whose channel buffer is
empty) is delivered the nil sentinel, which sendCommand resolves to the
connection-lost error. -/
theorem sweep_empties_pending_and_unblocks (s : ClientState) (e : Option String) :
    (readLoopExit s).1.pending = [] ∧ (Close s e).state.pending = [] ∧
    ∀ id b, (id, b) ∈ s.pending → b = none →
      (id, some none) ∈ (readLoopExit s).2 ∧
      (id, some none) ∈ (Close s e).drained ∧
      sendCommandResolve none = Except.error "connection lost" := by
  refine ⟨rfl, rfl, ?_⟩
  intro id b hmem hb
  subst hb
  have h1 : (id, (some none : PendBuf)) ∈ sweepPending s.pending := by
    have := List.mem_map_of_mem (fun p : String × PendBuf => (p.1, match p.2 with
      | none => some none
      | some v => some v)) hmem
    simpa [sweepPending] using this
  exact ⟨h1, h1, rfl⟩

/-- Witness for C1: a pending table with one blocked waiter. -/
theorem sweep_empties_pending_and_unblocks_witness :
    ("outbound_1", (none : PendBuf)) ∈
        ({ NewClient with pending := [("outbound_1", none)] } : ClientState).pending ∧
      ("outbound_1", (some none : PendBuf)) ∈
        (readLoopExit { NewClient with pending := [("outbound_1", none)] }).2 := by
  have h := sweep_empties_pending_and_unblocks
    { NewClient with pending := [("outbound_1", none)] } none
  exact ⟨by simp, (h.2.2 "outbound_1" none (by simp) rfl).1⟩

theorem toDigitsCore_eq_decChars :
    ∀ (fuel n : Nat) (acc : List Char), n < fuel →
      Nat.toDigitsCore 10 fuel n acc = decChars n ++ acc := by
  intro fuel
  induction fuel with
  | zero => intro n acc h; omega
  | succ f ih =>
    intro n acc h
    by_cases h10 : n / 10 = 0
    · have hn : n < 10 := by omega
      have hmod : n % 10 = n := Nat.mod_eq_of_lt hn
      simp [Nat.toDigitsCore, h10, decChars, hn, hmod]
    · have hn : ¬ n < 10 := by
        intro hlt
        exact h10 (Nat.div_eq_of_lt hlt)
      have hdiv : n / 10 < f := by
        have h1 : n / 10 < n := Nat.div_lt_self (by omega) (by omega)
        omega
      rw [decChars]
      simp only [Nat.toDigitsCore, h10, if_false, hn, dif_neg, not_false_iff]
      rw [ih (n / 10) (Nat.digitChar (n % 10) :: acc) hdiv]
      simp

theorem repr_eq_decChars (n : Nat) : Nat.repr n = (decChars n).asString := by
  unfold Nat.repr Nat.toDigits
  rw [toDigitsCore_eq_decChars (n + 1) n [] (Nat.lt_succ_self n)]
  simp

theorem digitChar_inj_lt (a b : Nat) (ha : a < 10) (hb : b < 10)
    (h : Nat.digitChar a = Nat.digitChar b) : a = b := by
  have key : ∀ x : Fin 10, ∀ y : Fin 10,
      Nat.digitChar x.val = Nat.digitChar y.val → x = y := by decide
  exact congrArg Fin.val (key ⟨a, ha⟩ ⟨b, hb⟩ h)

theorem digitChar_ne_underscore (a : Nat) (ha : a < 10) :
    Nat.digitChar a ≠ '_' := by
  have key : ∀ x : Fin 10, Nat.digitChar x.val ≠ '_' := by decide
  exact key ⟨a, ha⟩

theorem decChars_ne_nil (n : Nat) : decChars n ≠ [] := by
  rw [decChars]
  split
  · simp
  · simp

theorem decChars_no_underscore (n : Nat) : ∀ c ∈ decChars n, c ≠ '_' := by
  induction n using Nat.strong_induction_on with
  | _ n ih =>
    rw [decChars]
    split
    next h =>
      intro c hc
      simp only [List.mem_singleton] at hc
      subst hc
      exact digitChar_ne_underscore n h
    next h =>
      intro c hc
      rw [List.mem_append] at hc
      rcases hc with hc | hc
      · exact ih (n / 10) (Nat.div_lt_self (by omega) (by omega)) c hc
      · simp only [List.mem_singleton] at hc
        subst hc
        exact digitChar_ne_underscore (n % 10) (Nat.mod_lt _ (by omega))

theorem decChars_small {n : Nat} (h : n < 10) : decChars n = [Nat.digitChar n] := by
  rw [decChars]
  exact dif_pos h

theorem decChars_big {n : Nat} (h : ¬ n < 10) :
    decChars n = decChars (n / 10) ++ [Nat.digitChar (n % 10)] := by
  rw [decChars]
  exact dif_neg h

theorem decChars_injective : ∀ m n : Nat, decChars m = decChars n → m = n := by
  intro m
  induction m using Nat.strong_induction_on with
  | _ m ih =>
    intro n h
    by_cases hm : m < 10 <;> by_cases hn : n < 10
    · rw [decChars_small hm, decChars_small hn] at h
      simp only [List.cons.injEq, and_true] at h
      exact digitChar_inj_lt m n hm hn h
    · rw [decChars_small hm, decChars_big hn] at h
      have hlen := congrArg List.length h
      have hpos : 0 < (decChars (n / 10)).length :=
        List.length_pos.mpr (decChars_ne_nil (n / 10))
      simp only [List.length_singleton, List.length_append] at hlen
      omega
    · rw [decChars_big hm, decChars_small hn] at h
      have hlen := congrArg List.length h
      have hpos : 0 < (decChars (m / 10)).length :=
        List.length_pos.mpr (decChars_ne_nil (m / 10))
      simp only [List.length_singleton, List.length_append] at hlen
      omega
    · rw [decChars_big hm, decChars_big hn] at h
      have hrev := congrArg List.reverse h
      simp only [List.reverse_append, List.reverse_singleton, List.singleton_append,
        List.cons.injEq] at hrev
      have hdig : m % 10 = n % 10 :=
        digitChar_inj_lt _ _ (Nat.mod_lt _ (by omega)) (Nat.mod_lt _ (by omega)) hrev.1
      have hdivs : m / 10 = n / 10 :=
        ih (m / 10) (Nat.div_lt_self (by omega) (by omega)) (n / 10)
          (List.reverse_injective hrev.2)
      omega

theorem repr_injective (m n : Nat) (h : Nat.repr m = Nat.repr n) : m = n := by
  rw [repr_eq_decChars, repr_eq_decChars] at h
  exact decChars_injective _ _ (by simpa [List.asString] using congrArg String.data h)

theorem repr_no_underscore (n : Nat) : ∀ c ∈ (Nat.repr n).data, c ≠ '_' := by
  rw [repr_eq_decChars]
  simpa [List.asString] using decChars_no_underscore n

theorem underscore_split_inj :
    ∀ (p₁ p₂ q₁ q₂ : List Char), (∀ c ∈ p₁, c ≠ '_') → (∀ c ∈ p₂, c ≠ '_') →
      p₁ ++ '_' :: q₁ = p₂ ++ '_' :: q₂ → p₁ = p₂ ∧ q₁ = q₂ := by
  intro p₁
  induction p₁ with
  | nil =>
    intro p₂ q₁ q₂ _ hp₂ h
    cases p₂ with
    | nil => simpa using h
    | cons c p₂ =>
      exfalso
      simp only [List.nil_append, List.cons_append, List.cons.injEq] at h
      exact hp₂ c (by simp) h.1.symm
  | cons c p₁ ih =>
    intro p₂ q₁ q₂ hp₁ hp₂ h
    cases p₂ with
    | nil =>
      exfalso
      simp only [List.nil_append, List.cons_append, List.cons.injEq] at h
      exact hp₁ c (by simp) h.1
    | cons d p₂ =>
      simp only [List.cons_append, List.cons.injEq] at h
      have := ih p₂ q₁ q₂ (fun x hx => hp₁ x (by simp [hx])) (fun x hx => hp₂ x (by simp [hx])) h.2
      exact ⟨by rw [h.1, this.1], this.2⟩

theorem mkReqID_counter_inj (a₁ a₂ : String) (n₁ n₂ : Nat)
    (h : mkReqID a₁ n₁ = mkReqID a₂ n₂) : n₁ = n₂ := by
  have hdata := congrArg String.data h
  simp only [mkReqID, String.data_append] at hdata
  have hdata2 : a₁.data ++ '_' :: (Nat.repr n₁).data
      = a₂.data ++ '_' :: (Nat.repr n₂).data := by
    simpa using hdata
  have hrev := congrArg List.reverse hdata2
  simp only [List.reverse_append, List.reverse_cons, List.append_assoc,
    List.singleton_append] at hrev
  have hsplit := underscore_split_inj (Nat.repr n₁).data.reverse (Nat.repr n₂).data.reverse
    a₁.data.reverse a₂.data.reverse
    (fun c hc => repr_no_underscore n₁ c (List.mem_reverse.mp hc))
    (fun c hc => repr_no_underscore n₂ c (List.mem_reverse.mp hc)) hrev
  have hdataeq : (Nat.repr n₁).data = (Nat.repr n₂).data :=
    List.reverse_injective hsplit.1
  exact repr_injective n₁ n₂ (congrArg String.mk hdataeq)

theorem issueIds_length : ∀ (as : List String) (ctr : Nat),
    (issueIds ctr as).length = as.length := by
  intro as
  induction as with
  | nil => intro ctr; rfl
  | cons a rest ih => intro ctr; simp [issueIds, ih]

theorem issueIds_get : ∀ (as : List String) (ctr i : Nat) (h : i < as.length),
    (issueIds ctr as).get ⟨i, by rw [issueIds_length]; exact h⟩
      = mkReqID (as.get ⟨i, h⟩) ((ctr + i + 1) % W64) := by
  intro as
  induction as with
  | nil => intro ctr i h; simp at h
  | cons a rest ih =>
    intro ctr i h
    cases i with
    | zero => rfl
    | succ j =>
      have hj : j < rest.length := by simpa using h
      have := ih ((ctr + 1) % W64) j hj
      simp only [issueIds, List.get_cons_succ]
      rw [this]
      congr 1
      rw [Nat.add_assoc, Nat.mod_add_mod]
      congr 1
      omega

/-- Claim C2: each request id issued in a session has the form
action, underscore, decimal counter, with the atomic counter starting at 1 at
client construction (NewClient starts the counter storage at 0, so the first
Add yields 1), and no two requests in a session of at most 2^64 commands
share a request id. -/
theorem request_ids_unique (as : List String) (hlen : as.length ≤ W64) :
    (∀ i (hi : i < as.length),
      (issueIds NewClient.nextReqID as).get ⟨i, by rw [issueIds_length]; exact hi⟩
        = mkReqID (as.get ⟨i, hi⟩) ((i + 1) % W64)) ∧
    List.Pairwise (fun x y => x ≠ y) (issueIds NewClient.nextReqID as) := by
  have hids : ∀ i (hi : i < as.length),
      (issueIds NewClient.nextReqID as).get ⟨i, by rw [issueIds_length]; exact hi⟩
        = mkReqID (as.get ⟨i, hi⟩) ((i + 1) % W64) := by
    intro i hi
    have h := issueIds_get as NewClient.nextReqID i hi
    simpa [NewClient] using h
  refine ⟨hids, ?_⟩
  rw [List.pairwise_iff_get]
  intro i j hij
  have hi : i.val < as.length :=
    lt_of_lt_of_eq i.isLt (issueIds_length as NewClient.nextReqID)
  have hj : j.val < as.length :=
    lt_of_lt_of_eq j.isLt (issueIds_length as NewClient.nextReqID)
  have ei : (issueIds NewClient.nextReqID as).get i
      = mkReqID (as.get ⟨i.val, hi⟩) ((i.val + 1) % W64) := hids i.val hi
  have ej : (issueIds NewClient.nextReqID as).get j
      = mkReqID (as.get ⟨j.val, hj⟩) ((j.val + 1) % W64) := hids j.val hj
  intro heq
  rw [ei, ej] at heq
  have hctr := mkReqID_counter_inj _ _ _ _ heq
  have hijv : i.val < j.val := hij
  have hiW : i.val + 1 < W64 := by omega
  rw [Nat.mod_eq_of_lt hiW] at hctr
  by_cases hjW : j.val + 1 < W64
  · rw [Nat.mod_eq_of_lt hjW] at hctr
    omega
  · have hjeq : j.val + 1 = W64 := by omega
    rw [hjeq, Nat.mod_self] at hctr
    omega

/-- Witness for C2: a concrete session of three commands yields pairwise
distinct request ids. -/
theorem request_ids_unique_witness :
    (["outbound", "hangup", "outbound"] : List String).length ≤ W64 ∧
      List.Pairwise (fun x y : String => x ≠ y)
        (issueIds NewClient.nextReqID ["outbound", "hangup", "outbound"]) := by
  have h : (["outbound", "hangup", "outbound"] : List String).length ≤ W64 := by
    norm_num [W64]
  exact ⟨h, (request_ids_unique ["outbound", "hangup", "outbound"] h).2⟩

/-- Case analysis of findOrCreate mirroring the four control paths of
lines 745-763. -/
theorem findOrCreate_spec (s : ClientState) (callid channel uid : String) :
    (∃ r, s.calls callid = some r ∧ findOrCreate s callid channel uid = (s, some r, [])) ∨
    (s.calls callid = none ∧ channel ≠ "" ∧ uid ≠ "" ∧
      ∃ r, s.calls (channel ++ ":" ++ uid) = some r ∧
        findOrCreate s callid channel uid = (s, some r, [])) ∨
    (s.calls callid = none ∧
      (if channel ≠ "" ∧ uid ≠ "" then s.calls (channel ++ ":" ++ uid) else none) = none ∧
      callid ≠ "" ∧
      findOrCreate s callid channel uid =
        ({ s with
            heap := hupd s.heap s.nextRef { CallID := callid, Channel := channel, UID := uid }
            nextRef := s.nextRef + 1
            calls := rupd s.calls callid (some s.nextRef) },
          some s.nextRef, [RegOp.ins callid])) ∨
    (s.calls callid = none ∧
      (if channel ≠ "" ∧ uid ≠ "" then s.calls (channel ++ ":" ++ uid) else none) = none ∧
      callid = "" ∧
      findOrCreate s callid channel uid = (s, none, [])) := by
  unfold findOrCreate
  cases h0 : s.calls callid with
  | some r => exact Or.inl ⟨r, rfl, rfl⟩
  | none =>
    by_cases hcu : channel ≠ "" ∧ uid ≠ ""
    · cases h1 : s.calls (channel ++ ":" ++ uid) with
      | some r =>
        refine Or.inr (Or.inl ⟨rfl, hcu.1, hcu.2, r, rfl, ?_⟩)
        simp [hcu, h1]
      | none =>
        by_cases hcid : callid ≠ ""
        · refine Or.inr (Or.inr (Or.inl ⟨rfl, by simp [hcu, h1], hcid, ?_⟩))
          simp [hcu, h1, hcid, regSet, h0]
        · refine Or.inr (Or.inr (Or.inr ⟨rfl, by simp [hcu, h1], by simpa using hcid, ?_⟩))
          simp [hcu, h1, hcid]
    · by_cases hcid : callid ≠ ""
      · refine Or.inr (Or.inr (Or.inl ⟨rfl, by simp [hcu], hcid, ?_⟩))
        simp [hcu, hcid, regSet, h0]
      · refine Or.inr (Or.inr (Or.inr ⟨rfl, by simp [hcu], by simpa using hcid, ?_⟩))
        simp [hcu, hcid]

/-- Claim C10: with no event handler set, processing any inbound event frame
leaves the client state (registry included) completely unchanged and invokes
no callback. -/
theorem no_handler_no_effect (s : ClientState) (msg : GoMap)
    (h : s.handler = none) : handleEvent s msg = (s, [], []) := by
  simp [handleEvent, h]

/-- Witness for C10: the freshly constructed client has no handler, and an
event frame leaves it untouched. -/
theorem no_handler_no_effect_witness :
    NewClient.handler = none ∧ handleEvent NewClient hangupUnknownMsg = (NewClient, [], []) :=
  ⟨rfl, no_handler_no_effect NewClient hangupUnknownMsg rfl⟩

/-- Counterexample to C5 as stated: a record created with direction outbound
has its direction overwritten to inbound by a later event that carries a
direction field (client.go lines 781-783). -/
theorem direction_changes_counterexample :
    (sampleClient.heap 0).Direction = "outbound" ∧
    ((handleEvent sampleClient ringingInboundMsg).1.heap 0).Direction = "inbound" := by
  constructor
  · rfl
  · decide

/-- Auxiliary: the Direction projection commutes with ite. -/
theorem direction_push (p : Prop) [Decidable p] (a b : Call) :
    (if p then a else b).Direction = if p then a.Direction else b.Direction := by
  split <;> rfl

/-- updCallFields does not change the direction field when the event does
not carry a non-empty direction string. -/
theorem updCallFields_direction (c : Call) (msg : GoMap) (channel uid callid : String)
    (hdir : ∀ d, getStrOk msg "direction" = some d → d = "") :
    (updCallFields c msg channel uid callid).Direction = c.Direction := by
  unfold updCallFields
  cases hd : getStrOk msg "direction" with
  | none =>
    cases hf : getStrOk msg "from" <;> cases ht : getStrOk msg "to" <;>
      cases hap : getStrOk msg "appid" <;>
      simp [direction_push]
  | some d =>
    have hd0 : d = "" := hdir d hd
    subst hd0
    cases hf : getStrOk msg "from" <;> cases ht : getStrOk msg "to" <;>
      cases hap : getStrOk msg "appid" <;>
      simp [direction_push]

/-- dispatchEvent changes only the State field of the dispatched record when
the event is not call_incoming. -/
theorem dispatchEvent_direction (s : ClientState) (h : HandlerSpec) (r : Nat)
    (et callid : String) (msg : GoMap) (hev : et ≠ "call_incoming") (q : Nat) :
    ((dispatchEvent s h r et callid msg).1.heap q).Direction = (s.heap q).Direction := by
  have key : ∀ (c : Call), c.Direction = (s.heap r).Direction →
      ((hupd s.heap r c) q).Direction = (s.heap q).Direction := by
    intro c hc
    by_cases hq : q = r
    · subst hq; rw [hupd_same, hc]
    · rw [hupd_other _ _ _ _ hq]
  unfold dispatchEvent
  split
  · exact absurd rfl hev
  · exact key _ rfl
  · exact key _ rfl
  · exact key _ rfl
  · exact key _ rfl
  · simp only [regDel]
    split
    · exact key _ rfl
    · exact key _ rfl
  · split
    · rfl
    · rfl
  · rfl

/-- Claim C5 (amended): the direction of a registered call record is set at
record creation and is changed afterwards only by an event that carries a
non-empty direction field or by a call_incoming event (which forces it to
inbound); under any other event, and under Dial and Hangup, every registered
record keeps its direction. -/
theorem direction_stable_amended (s : ClientState) (msg : GoMap)
    (params : DialParams) (dOut : CmdOutcome) (hcid : String) (hOut : CmdOutcome)
    (hb : RefsBounded s)
    (hdir : ∀ d, getStrOk msg "direction" = some d → d = "")
    (hev : getStr msg "event" ≠ "call_incoming") :
    (∀ k r, s.calls k = some r →
      ((handleEvent s msg).1.heap r).Direction = (s.heap r).Direction) ∧
    (∀ k r, s.calls k = some r →
      ((Dial s params dOut).1.heap r).Direction = (s.heap r).Direction) ∧
    (∀ r, ((Hangup s hcid hOut).1.heap r).Direction = (s.heap r).Direction) := by
  refine ⟨?_, ?_, ?_⟩
  · intro k r hk
    have hr : r < s.nextRef := hb k r hk
    unfold handleEvent
    cases hh : s.handler with
    | none => rfl
    | some h =>
      simp only [hh]
      rcases findOrCreate_spec s (getStr msg "callid") (getStr msg "channel")
          (getStr msg "uid") with
        ⟨rf, hfind, hfc⟩ | ⟨hn0, hch, hu, rf, hfind, hfc⟩ |
        ⟨hn0, hvc, hcid2, hfc⟩ | ⟨hn0, hvc, hcid2, hfc⟩
      · rw [hfc]
        simp only []
        rw [dispatchEvent_direction _ _ _ _ _ _ hev r]
        by_cases hrf : r = rf
        · subst hrf
          simp only [hupd_same]
          exact updCallFields_direction _ _ _ _ _ hdir
        · simp [hupd_other _ _ _ _ hrf]
      · rw [hfc]
        simp only []
        rw [dispatchEvent_direction _ _ _ _ _ _ hev r]
        by_cases hrf : r = rf
        · subst hrf
          simp only [hupd_same]
          exact updCallFields_direction _ _ _ _ _ hdir
        · simp [hupd_other _ _ _ _ hrf]
      · rw [hfc]
        simp only []
        rw [dispatchEvent_direction _ _ _ _ _ _ hev r]
        have hrf : r ≠ s.nextRef := by omega
        simp [hupd_other _ _ _ _ hrf, hupd_other]
      · rw [hfc]
  · intro k r hk
    have hr : r < s.nextRef := hb k r hk
    have hrn : r ≠ s.nextRef := by omega
    cases dOut with
    | sendErr e => simp [Dial, dialPreInsert, hupd_other _ _ _ _ hrn]
    | lost => simp [Dial, dialPreInsert, hupd_other _ _ _ _ hrn]
    | reply resp =>
      simp only [Dial]
      split
      · simp only [dialPreInsert, rupd_same]
        simp [hupd_other _ _ _ _ hrn]
      · simp [dialPreInsert, hupd_other _ _ _ _ hrn]
  · intro r
    cases hOut with
    | sendErr e => rfl
    | lost => rfl
    | reply resp =>
      simp only [Hangup]
      cases hm : getStrOk resp "error" with
      | some errMsg => rfl
      | none => rfl

/-- Auxiliary: the Channel projection commutes with ite. -/
theorem channel_push (p : Prop) [Decidable p] (a b : Call) :
    (if p then a else b).Channel = if p then a.Channel else b.Channel := by
  split <;> rfl

/-- Auxiliary: the UID projection commutes with ite. -/
theorem uid_push (p : Prop) [Decidable p] (a b : Call) :
    (if p then a else b).UID = if p then a.UID else b.UID := by
  split <;> rfl

/-- Auxiliary: the CallID projection commutes with ite. -/
theorem callID_push (p : Prop) [Decidable p] (a b : Call) :
    (if p then a else b).CallID = if p then a.CallID else b.CallID := by
  split <;> rfl

/-- The channel field after the event field-update block. -/
theorem updCallFields_Channel (c : Call) (msg : GoMap) (channel uid callid : String) :
    (updCallFields c msg channel uid callid).Channel
      = if channel ≠ "" then channel else c.Channel := by
  unfold updCallFields
  cases hf : getStrOk msg "from" <;> cases ht : getStrOk msg "to" <;>
    cases hd : getStrOk msg "direction" <;> cases hap : getStrOk msg "appid" <;>
    simp [channel_push]

/-- The uid field after the event field-update block. -/
theorem updCallFields_UID (c : Call) (msg : GoMap) (channel uid callid : String) :
    (updCallFields c msg channel uid callid).UID
      = if uid ≠ "" then uid else c.UID := by
  unfold updCallFields
  cases hf : getStrOk msg "from" <;> cases ht : getStrOk msg "to" <;>
    cases hd : getStrOk msg "direction" <;> cases hap : getStrOk msg "appid" <;>
    simp [uid_push]

/-- The callid field after the event field-update block. -/
theorem updCallFields_CallID (c : Call) (msg : GoMap) (channel uid callid : String) :
    (updCallFields c msg channel uid callid).CallID
      = if callid ≠ "" then callid else c.CallID := by
  unfold updCallFields
  cases hf : getStrOk msg "from" <;> cases ht : getStrOk msg "to" <;>
    cases hd : getStrOk msg "direction" <;> cases hap : getStrOk msg "appid" <;>
    simp [callID_push]

/-- The callback trace of the call_hangup dispatch arm. -/
theorem dispatchEvent_hangup_cbs (s : ClientState) (h : HandlerSpec) (r : Nat)
    (callid : String) (msg : GoMap) :
    (dispatchEvent s h r "call_hangup" callid msg).2.1
        = [CB.onCallHangup { s.heap r with State := "hangup" }] := rfl

/-- The heap effect of the call_hangup dispatch arm. -/
theorem dispatchEvent_hangup_heap (s : ClientState) (h : HandlerSpec) (r : Nat)
    (callid : String) (msg : GoMap) (q : Nat) :
    (dispatchEvent s h r "call_hangup" callid msg).1.heap q
        = hupd s.heap r { s.heap r with State := "hangup" } q := by
  unfold dispatchEvent
  simp only [regDel]
  split <;> rfl

/-- The registry effect of the call_hangup dispatch arm: both the callid key
and the record's channel:uid composite key (when both parts are non-empty)
are deleted in the same critical section. -/
theorem dispatchEvent_hangup_calls (s : ClientState) (h : HandlerSpec) (r : Nat)
    (callid : String) (msg : GoMap) (k : String) :
    (dispatchEvent s h r "call_hangup" callid msg).1.calls k
        = if k = (s.heap r).Channel ++ ":" ++ (s.heap r).UID ∧
              ((s.heap r).Channel ≠ "" ∧ (s.heap r).UID ≠ "")
          then none
          else if k = callid then none else s.calls k := by
  unfold dispatchEvent
  simp only [regDel]
  split
  next hcond =>
    by_cases h1 : k = (s.heap r).Channel ++ ":" ++ (s.heap r).UID
    · simp [rupd, h1, hcond]
    · by_cases h2 : k = callid <;> simp [rupd, h1, h2, hcond]
  next hcond =>
    have hcond2 : ¬((s.heap r).Channel ≠ "" ∧ (s.heap r).UID ≠ "") := by
      simpa using hcond
    by_cases h2 : k = callid <;> simp [rupd, h2, hcond2]

/-- The callback trace of the call_incoming dispatch arm. -/
theorem dispatchEvent_incoming_cbs (s : ClientState) (h : HandlerSpec) (r : Nat)
    (callid : String) (msg : GoMap) :
    (dispatchEvent s h r "call_incoming" callid msg).2.1
        = [CB.onCallIncoming { s.heap r with State := "incoming", Direction := "inbound" }] := by
  unfold dispatchEvent
  split
  · split <;> rfl
  · rename_i heq; exact absurd heq (by decide)
  · rename_i heq; exact absurd heq (by decide)
  · rename_i heq; exact absurd heq (by decide)
  · rename_i heq; exact absurd heq (by decide)
  · rename_i heq; exact absurd heq (by decide)
  · rename_i heq; exact absurd heq (by decide)
  · rename_i h1 h2 h3 h4 h5 h6 h7; exact absurd rfl h1

/-- The registry effect of the call_incoming dispatch arm when the handler
declines the call: the callid key is deleted. -/
theorem dispatchEvent_incoming_calls (s : ClientState) (h : HandlerSpec) (r : Nat)
    (callid : String) (msg : GoMap) (hclaim : h.claimIncoming = false) (k : String) :
    (dispatchEvent s h r "call_incoming" callid msg).1.calls k
        = if k = callid then none else s.calls k := by
  unfold dispatchEvent
  simp only [hclaim, Bool.false_eq_true, if_false, regDel]
  by_cases h2 : k = callid <;> simp [rupd, h2]

/-- The registry-operation trace of the call_incoming dispatch arm when the
handler declines the call. -/
theorem dispatchEvent_incoming_ops (s : ClientState) (h : HandlerSpec) (r : Nat)
    (callid : String) (msg : GoMap) (hclaim : h.claimIncoming = false) :
    (dispatchEvent s h r "call_incoming" callid msg).2.2
        = (if s.calls callid = none then [] else [RegOp.del callid]) := by
  unfold dispatchEvent
  simp [hclaim, regDel]

/-- dispatchEvent never touches the handler slot. -/
theorem dispatchEvent_handler (s : ClientState) (h : HandlerSpec) (r : Nat)
    (et callid : String) (msg : GoMap) :
    (dispatchEvent s h r et callid msg).1.handler = s.handler := by
  unfold dispatchEvent
  split
  · split
    · rfl
    · simp [regDel]
  · rfl
  · rfl
  · rfl
  · rfl
  · simp only [regDel]
    split <;> rfl
  · split <;> rfl
  · rfl

/-- handleEvent never touches the handler slot. -/
theorem handleEvent_handler (s : ClientState) (msg : GoMap) :
    (handleEvent s msg).1.handler = s.handler := by
  unfold handleEvent
  cases hh : s.handler with
  | none => exact hh
  | some h =>
    simp only []
    rcases findOrCreate_spec s (getStr msg "callid") (getStr msg "channel")
        (getStr msg "uid") with
      ⟨rf, hfind, hfc⟩ | ⟨hn0, hch, hu, rf, hfind, hfc⟩ |
      ⟨hn0, hvc, hcid2, hfc⟩ | ⟨hn0, hvc, hcid2, hfc⟩ <;>
      rw [hfc] <;> simp [dispatchEvent_handler, hh]

/-- dispatchEvent never touches nextRef. -/
theorem dispatchEvent_nextRef (s : ClientState) (h : HandlerSpec) (r : Nat)
    (et callid : String) (msg : GoMap) :
    (dispatchEvent s h r et callid msg).1.nextRef = s.nextRef := by
  unfold dispatchEvent
  split
  · split
    · rfl
    · simp [regDel]
  · rfl
  · rfl
  · rfl
  · rfl
  · simp only [regDel]
    split <;> rfl
  · split <;> rfl
  · rfl

/-- Reduction of the state component of handleEvent when the handler is set
and a record is found or created. -/
theorem handleEvent_some_state (s : ClientState) (msg : GoMap) (h : HandlerSpec)
    (hh : s.handler = some h) (rf : Nat) (s1 : ClientState) (ops : List RegOp)
    (hfc : findOrCreate s (getStr msg "callid") (getStr msg "channel") (getStr msg "uid")
      = (s1, some rf, ops)) :
    (handleEvent s msg).1 =
      (dispatchEvent
          { s1 with heap := hupd s1.heap rf (updCallFields (s1.heap rf) msg
              (getStr msg "channel") (getStr msg "uid") (getStr msg "callid")) }
          h rf (getStr msg "event") (getStr msg "callid") msg).1 := by
  unfold handleEvent
  simp only [hh, hfc]

/-- Reduction of the callback trace of handleEvent when the handler is set
and a record is found or created. -/
theorem handleEvent_some_cbs (s : ClientState) (msg : GoMap) (h : HandlerSpec)
    (hh : s.handler = some h) (rf : Nat) (s1 : ClientState) (ops : List RegOp)
    (hfc : findOrCreate s (getStr msg "callid") (getStr msg "channel") (getStr msg "uid")
      = (s1, some rf, ops)) :
    (handleEvent s msg).2.1 =
      (dispatchEvent
          { s1 with heap := hupd s1.heap rf (updCallFields (s1.heap rf) msg
              (getStr msg "channel") (getStr msg "uid") (getStr msg "callid")) }
          h rf (getStr msg "event") (getStr msg "callid") msg).2.1 := by
  unfold handleEvent
  simp only [hh, hfc]

/-- Reduction of the registry-operation trace of handleEvent when the handler
is set and a record is found or created. -/
theorem handleEvent_some_ops (s : ClientState) (msg : GoMap) (h : HandlerSpec)
    (hh : s.handler = some h) (rf : Nat) (s1 : ClientState) (ops : List RegOp)
    (hfc : findOrCreate s (getStr msg "callid") (getStr msg "channel") (getStr msg "uid")
      = (s1, some rf, ops)) :
    (handleEvent s msg).2.2 =
      ops ++ (dispatchEvent
          { s1 with heap := hupd s1.heap rf (updCallFields (s1.heap rf) msg
              (getStr msg "channel") (getStr msg "uid") (getStr msg "callid")) }
          h rf (getStr msg "event") (getStr msg "callid") msg).2.2 := by
  unfold handleEvent
  simp only [hh, hfc]

/-- Reduction of handleEvent when the handler is set but no record is found
or created. -/
theorem handleEvent_none_fc (s : ClientState) (msg : GoMap) (h : HandlerSpec)
    (hh : s.handler = some h) (s1 : ClientState) (ops : List RegOp)
    (hfc : findOrCreate s (getStr msg "callid") (getStr msg "channel") (getStr msg "uid")
      = (s1, none, ops)) :
    handleEvent s msg = (s, [], []) := by
  unfold handleEvent
  simp only [hh, hfc]

/-- Overwriting the same heap cell twice keeps only the second write. -/
theorem hupd_hupd (f : Nat → Call) (r : Nat) (a b : Call) (q : Nat) :
    hupd (hupd f r a) r b q = hupd f r b q := by
  by_cases hq : q = r <;> simp [hupd, hq]

/-- Registry effect of a call_hangup dispatched on the field-updated state
that handleEvent builds. -/
theorem hangup_calls_composed (s1 : ClientState) (h : HandlerSpec) (rf : Nat)
    (msg : GoMap) (cid ch uid k : String) :
    (dispatchEvent
        { s1 with heap := hupd s1.heap rf (updCallFields (s1.heap rf) msg ch uid cid) }
        h rf "call_hangup" cid msg).1.calls k
      = if k = (if ch ≠ "" then ch else (s1.heap rf).Channel) ++ ":" ++
              (if uid ≠ "" then uid else (s1.heap rf).UID) ∧
            ((if ch ≠ "" then ch else (s1.heap rf).Channel) ≠ "" ∧
             (if uid ≠ "" then uid else (s1.heap rf).UID) ≠ "")
        then none
        else if k = cid then none else s1.calls k := by
  rw [dispatchEvent_hangup_calls]
  simp only [hupd_same, updCallFields_Channel, updCallFields_UID]

/-- Callback trace of a call_hangup dispatched on the field-updated state
that handleEvent builds. -/
theorem hangup_cbs_composed (s1 : ClientState) (h : HandlerSpec) (rf : Nat)
    (msg : GoMap) (cid ch uid : String) :
    (dispatchEvent
        { s1 with heap := hupd s1.heap rf (updCallFields (s1.heap rf) msg ch uid cid) }
        h rf "call_hangup" cid msg).2.1
      = [CB.onCallHangup
          { updCallFields (s1.heap rf) msg ch uid cid with State := "hangup" }] := by
  rw [dispatchEvent_hangup_cbs]
  simp only [hupd_same]

/-- Heap effect of a call_hangup dispatched on the field-updated state that
handleEvent builds. -/
theorem hangup_heap_composed (s1 : ClientState) (h : HandlerSpec) (rf : Nat)
    (msg : GoMap) (cid ch uid : String) (q : Nat) :
    (dispatchEvent
        { s1 with heap := hupd s1.heap rf (updCallFields (s1.heap rf) msg ch uid cid) }
        h rf "call_hangup" cid msg).1.heap q
      = hupd s1.heap rf
          { updCallFields (s1.heap rf) msg ch uid cid with State := "hangup" } q := by
  rw [dispatchEvent_hangup_heap]
  simp only [hupd_same]
  exact hupd_hupd _ _ _ _ q

/-- Counterexample to C6 as stated: a call_hangup event whose call id is not
in the registry is not a no-op — the dispatcher synthesises a record and
still invokes the hangup callback (client.go lines 751-758 create the
record, the call_hangup arm then fires OnCallHangup). -/
theorem hangup_unknown_counterexample :
    sampleClientNoClaim.calls "X" = none ∧
    (handleEvent sampleClientNoClaim hangupUnknownMsg).2.1 ≠ [] := by
  constructor
  · rfl
  · decide

/-- Claim C6 (amended): a call_hangup event whose call id is not registered
(and whose channel:uid matches no record) leaves the registry unchanged, but
when the call id is non-empty the handler's hangup callback is still invoked
with a synthesised record in state hangup; only an empty call id makes the
processing a complete no-op. -/
theorem hangup_unknown_amended (s : ClientState) (msg : GoMap) (h : HandlerSpec)
    (hh : s.handler = some h)
    (hev : getStr msg "event" = "call_hangup")
    (hcid : s.calls (getStr msg "callid") = none)
    (hck : getStr msg "channel" ≠ "" → getStr msg "uid" ≠ "" →
      s.calls (getStr msg "channel" ++ ":" ++ getStr msg "uid") = none) :
    (∀ k, (handleEvent s msg).1.calls k = s.calls k) ∧
    (getStr msg "callid" = "" → (handleEvent s msg).2.1 = []) ∧
    (getStr msg "callid" ≠ "" → ∃ c, (handleEvent s msg).2.1 = [CB.onCallHangup c] ∧
      c.State = "hangup" ∧ c.CallID = getStr msg "callid") := by
  rcases findOrCreate_spec s (getStr msg "callid") (getStr msg "channel")
      (getStr msg "uid") with
    ⟨rf, hfind, hfc⟩ | ⟨hn0, hch, hu, rf, hfind, hfc⟩ |
    ⟨hn0, hvc, hcid2, hfc⟩ | ⟨hn0, hvc, hcid2, hfc⟩
  · rw [hfind] at hcid
    exact absurd hcid (by simp)
  · have hnone := hck hch hu
    rw [hfind] at hnone
    exact absurd hnone (by simp)
  · refine ⟨?_, fun h0 => absurd h0 hcid2, ?_⟩
    · intro k
      rw [handleEvent_some_state s msg h hh s.nextRef _ _ hfc, hev, hangup_calls_composed]
      simp only [hupd_same, ite_self]
      split
      next hcase =>
        rw [hcase.1]
        exact (hck hcase.2.1 hcase.2.2).symm
      next hcase =>
        split
        next hk =>
          rw [hk]
          exact hcid.symm
        next hk =>
          simp [rupd, hk]
    · intro h0
      refine ⟨{ updCallFields ({ CallID := getStr msg "callid", Channel := getStr msg "channel", UID := getStr msg "uid" } : Call) msg (getStr msg "channel") (getStr msg "uid") (getStr msg "callid") with State := "hangup" }, ?_, rfl, ?_⟩
      · rw [handleEvent_some_cbs s msg h hh s.nextRef _ _ hfc, hev, hangup_cbs_composed]
        simp only [hupd_same]
      · rw [updCallFields_CallID]
        simp only [ite_self]
  · have heq := handleEvent_none_fc s msg h hh _ _ hfc
    rw [heq]
    refine ⟨fun k => rfl, fun _ => rfl, fun h0 => absurd hcid2 h0⟩

/-- Witness for the amended C6: a concrete unknown-call hangup event. -/
theorem hangup_unknown_amended_witness :
    sampleClientNoClaim.handler = some { claimIncoming := false, hasDTMF := false } ∧
    getStr hangupUnknownMsg "event" = "call_hangup" ∧
    sampleClientNoClaim.calls (getStr hangupUnknownMsg "callid") = none ∧
    ((∀ k, (handleEvent sampleClientNoClaim hangupUnknownMsg).1.calls k
        = sampleClientNoClaim.calls k) ∧
      (getStr hangupUnknownMsg "callid" = "" →
        (handleEvent sampleClientNoClaim hangupUnknownMsg).2.1 = []) ∧
      (getStr hangupUnknownMsg "callid" ≠ "" →
        ∃ c, (handleEvent sampleClientNoClaim hangupUnknownMsg).2.1 = [CB.onCallHangup c] ∧
          c.State = "hangup" ∧ c.CallID = getStr hangupUnknownMsg "callid")) := by
  refine ⟨rfl, rfl, rfl, ?_⟩
  exact hangup_unknown_amended sampleClientNoClaim hangupUnknownMsg _ rfl rfl rfl
    (fun h1 _ => absurd rfl h1)

/-- One processing of a declined call_incoming event performs at most one
effective insertion and one effective deletion, and leaves no registry entry
under the event's call id. -/
theorem incoming_unclaimed_once (s : ClientState) (msg : GoMap) (h : HandlerSpec)
    (hh : s.handler = some h) (hclaim : h.claimIncoming = false)
    (hev : getStr msg "event" = "call_incoming") :
    countIns (handleEvent s msg).2.2 ≤ 1 ∧ countDel (handleEvent s msg).2.2 ≤ 1 ∧
    (handleEvent s msg).1.calls (getStr msg "callid") = none := by
  rcases findOrCreate_spec s (getStr msg "callid") (getStr msg "channel")
      (getStr msg "uid") with
    ⟨rf, hfind, hfc⟩ | ⟨hn0, hch, hu, rf, hfind, hfc⟩ |
    ⟨hn0, hvc, hcid2, hfc⟩ | ⟨hn0, hvc, hcid2, hfc⟩
  · refine ⟨?_, ?_, ?_⟩
    · rw [handleEvent_some_ops s msg h hh rf _ _ hfc, hev,
        dispatchEvent_incoming_ops _ _ _ _ _ hclaim]
      split <;> simp [countIns]
    · rw [handleEvent_some_ops s msg h hh rf _ _ hfc, hev,
        dispatchEvent_incoming_ops _ _ _ _ _ hclaim]
      split <;> simp [countDel]
    · rw [handleEvent_some_state s msg h hh rf _ _ hfc, hev,
        dispatchEvent_incoming_calls _ _ _ _ _ hclaim]
      simp
  · refine ⟨?_, ?_, ?_⟩
    · rw [handleEvent_some_ops s msg h hh rf _ _ hfc, hev,
        dispatchEvent_incoming_ops _ _ _ _ _ hclaim]
      split <;> simp [countIns]
    · rw [handleEvent_some_ops s msg h hh rf _ _ hfc, hev,
        dispatchEvent_incoming_ops _ _ _ _ _ hclaim]
      split <;> simp [countDel]
    · rw [handleEvent_some_state s msg h hh rf _ _ hfc, hev,
        dispatchEvent_incoming_calls _ _ _ _ _ hclaim]
      simp
  · refine ⟨?_, ?_, ?_⟩
    · rw [handleEvent_some_ops s msg h hh s.nextRef _ _ hfc, hev,
        dispatchEvent_incoming_ops _ _ _ _ _ hclaim]
      split <;> simp [countIns]
    · rw [handleEvent_some_ops s msg h hh s.nextRef _ _ hfc, hev,
        dispatchEvent_incoming_ops _ _ _ _ _ hclaim]
      split <;> simp [countDel]
    · rw [handleEvent_some_state s msg h hh s.nextRef _ _ hfc, hev,
        dispatchEvent_incoming_calls _ _ _ _ _ hclaim]
      simp
  · rw [handleEvent_none_fc s msg h hh _ _ hfc]
    exact ⟨by simp [countIns], by simp [countDel], hn0⟩

/-- Claim C8 (amended): processing the same call_incoming event twice with
the handler declining both times performs at most one effective registry
insertion and one effective deletion per processing (hence at most two of
each across the replay), and afterwards the registry retains no entry under
that call id. -/
theorem incoming_unclaimed_replay_amended (s : ClientState) (msg : GoMap) (h : HandlerSpec)
    (hh : s.handler = some h) (hclaim : h.claimIncoming = false)
    (hev : getStr msg "event" = "call_incoming") :
    countIns (handleEvent s msg).2.2 ≤ 1 ∧
    countDel (handleEvent s msg).2.2 ≤ 1 ∧
    countIns (handleEvent (handleEvent s msg).1 msg).2.2 ≤ 1 ∧
    countDel (handleEvent (handleEvent s msg).1 msg).2.2 ≤ 1 ∧
    (handleEvent (handleEvent s msg).1 msg).1.calls (getStr msg "callid") = none := by
  have h1 := incoming_unclaimed_once s msg h hh hclaim hev
  have hh2 : (handleEvent s msg).1.handler = some h := by
    rw [handleEvent_handler]
    exact hh
  have h2 := incoming_unclaimed_once (handleEvent s msg).1 msg h hh2 hclaim hev
  exact ⟨h1.1, h1.2.1, h2.1, h2.2.1, h2.2.2⟩

/-- Counterexample to C8 as stated: replaying the same declined
call_incoming event sequentially performs two effective insertions (and two
deletions), not at most one — each processing re-creates and re-deletes the
record. -/
theorem incoming_replay_counterexample :
    countIns ((handleEvent sampleClientNoClaim incomingMsg).2.2 ++
        (handleEvent (handleEvent sampleClientNoClaim incomingMsg).1 incomingMsg).2.2) = 2 ∧
    countDel ((handleEvent sampleClientNoClaim incomingMsg).2.2 ++
        (handleEvent (handleEvent sampleClientNoClaim incomingMsg).1 incomingMsg).2.2) = 2 := by
  constructor
  · decide
  · decide

/-- Witness for the amended C8: a concrete declined incoming event replay. -/
theorem incoming_unclaimed_replay_amended_witness :
    sampleClientNoClaim.handler = some { claimIncoming := false, hasDTMF := false } ∧
    getStr incomingMsg "event" = "call_incoming" ∧
    (countIns (handleEvent sampleClientNoClaim incomingMsg).2.2 ≤ 1 ∧
      countDel (handleEvent sampleClientNoClaim incomingMsg).2.2 ≤ 1 ∧
      countIns (handleEvent (handleEvent sampleClientNoClaim incomingMsg).1 incomingMsg).2.2 ≤ 1 ∧
      countDel (handleEvent (handleEvent sampleClientNoClaim incomingMsg).1 incomingMsg).2.2 ≤ 1 ∧
      (handleEvent (handleEvent sampleClientNoClaim incomingMsg).1 incomingMsg).1.calls
        (getStr incomingMsg "callid") = none) := by
  refine ⟨rfl, rfl, ?_⟩
  exact incoming_unclaimed_replay_amended sampleClientNoClaim incomingMsg _ rfl rfl rfl

/-- Witness for the amended C5: a hangup event carrying no direction field
leaves the sample outbound record's direction unchanged. -/
theorem direction_stable_amended_witness :
    RefsBounded sampleClient ∧
    (∀ d, getStrOk hangupUnknownMsg "direction" = some d → d = "") ∧
    getStr hangupUnknownMsg "event" ≠ "call_incoming" ∧
    ((∀ k r, sampleClient.calls k = some r →
        ((handleEvent sampleClient hangupUnknownMsg).1.heap r).Direction
          = (sampleClient.heap r).Direction) ∧
      (∀ k r, sampleClient.calls k = some r →
        ((Dial sampleClient {} CmdOutcome.lost).1.heap r).Direction
          = (sampleClient.heap r).Direction) ∧
      (∀ r, ((Hangup sampleClient "C1" CmdOutcome.lost).1.heap r).Direction
          = (sampleClient.heap r).Direction)) := by
  have hb : RefsBounded sampleClient := by
    intro k r hk
    by_cases hkc : k = "C1"
    · subst hkc
      have hv : sampleClient.calls "C1" = some 0 := rfl
      rw [hv] at hk
      have : r = 0 := by simpa using hk.symm
      subst this
      decide
    · have hv : sampleClient.calls k = none := by
        simp [sampleClient, NewClient, rupd, hkc]
      rw [hv] at hk
      exact absurd hk (by simp)
  have hdir : ∀ d, getStrOk hangupUnknownMsg "direction" = some d → d = "" := by
    intro d hd
    simp [getStrOk, lookupGo, hangupUnknownMsg] at hd
  have hev : getStr hangupUnknownMsg "event" ≠ "call_incoming" := by decide
  exact ⟨hb, hdir, hev,
    direction_stable_amended sampleClient hangupUnknownMsg {} CmdOutcome.lost "C1"
      CmdOutcome.lost hb hdir hev⟩

/-- Every record passed to the hangup callback has both of its addressing
keys absent from the registry produced by the dispatch. -/
theorem hangup_cb_chanKey_deleted (s1 : ClientState) (h : HandlerSpec) (rf : Nat)
    (msg : GoMap) (cid ch uid : String) :
    ∀ c, CB.onCallHangup c ∈ (dispatchEvent
        { s1 with heap := hupd s1.heap rf (updCallFields (s1.heap rf) msg ch uid cid) }
        h rf "call_hangup" cid msg).2.1 →
      c.Channel ≠ "" → c.UID ≠ "" →
      (dispatchEvent
        { s1 with heap := hupd s1.heap rf (updCallFields (s1.heap rf) msg ch uid cid) }
        h rf "call_hangup" cid msg).1.calls (c.Channel ++ ":" ++ c.UID) = none := by
  intro c hc hch hu
  rw [hangup_cbs_composed] at hc
  have hceq : c = { updCallFields (s1.heap rf) msg ch uid cid with State := "hangup" } := by
    simpa using hc
  subst hceq
  simp only [] at hch hu ⊢
  rw [updCallFields_Channel] at hch
  rw [updCallFields_UID] at hu
  rw [hangup_calls_composed]
  rw [updCallFields_Channel, updCallFields_UID]
  rw [if_pos ⟨rfl, hch, hu⟩]

/-- Inverting a two-branch none-guard conditional that produced a value. -/
theorem ite_chain_some {p q : Prop} [Decidable p] [Decidable q] {x : Option Nat} {rr : Nat}
    (h : (if p then none else if q then none else x) = some rr) :
    ¬p ∧ ¬q ∧ x = some rr := by
  by_cases hp : p
  · rw [if_pos hp] at h
    exact absurd h (by simp)
  · rw [if_neg hp] at h
    by_cases hq : q
    · rw [if_pos hq] at h
      exact absurd h (by simp)
    · rw [if_neg hq] at h
      exact ⟨hp, hq, h⟩

/-- Claim C3: processing a call_hangup event deletes the event's call-id key
and the dispatched record's channel:uid composite key inside the same
critical section, so a registry whose reachable records are uniquely keyed,
allocated, and never in state hangup still has no entry in state hangup
afterwards. -/
theorem hangup_event_removes_both_keys (s : ClientState) (msg : GoMap) (h : HandlerSpec)
    (hh : s.handler = some h) (hev : getStr msg "event" = "call_hangup")
    (huniq : UniqueRef s) (hb : RefsBounded s) (hnh : NoHangup s) :
    (handleEvent s msg).1.calls (getStr msg "callid") = none ∧
    (∀ c, CB.onCallHangup c ∈ (handleEvent s msg).2.1 →
      c.Channel ≠ "" → c.UID ≠ "" →
      (handleEvent s msg).1.calls (c.Channel ++ ":" ++ c.UID) = none) ∧
    NoHangup (handleEvent s msg).1 := by
  rcases findOrCreate_spec s (getStr msg "callid") (getStr msg "channel")
      (getStr msg "uid") with
    ⟨rf, hfind, hfc⟩ | ⟨hn0, hch, hu, rf, hfind, hfc⟩ |
    ⟨hn0, hvc, hcid2, hfc⟩ | ⟨hn0, hvc, hcid2, hfc⟩
  · refine ⟨?_, ?_, ?_⟩
    · rw [handleEvent_some_state s msg h hh rf _ _ hfc, hev, hangup_calls_composed]
      simp
    · intro c hc hch2 hu2
      rw [handleEvent_some_cbs s msg h hh rf _ _ hfc, hev] at hc
      rw [handleEvent_some_state s msg h hh rf _ _ hfc, hev]
      exact hangup_cb_chanKey_deleted _ h rf msg _ _ _ c hc hch2 hu2
    · intro k rr hk
      rw [handleEvent_some_state s msg h hh rf _ _ hfc, hev, hangup_calls_composed] at hk
      obtain ⟨hc1, hc2, hk2⟩ := ite_chain_some hk
      have hrr : rr ≠ rf := by
        intro hrfeq
        subst hrfeq
        exact hc2 (huniq k (getStr msg "callid") rr hk2 hfind)
      rw [handleEvent_some_state s msg h hh rf _ _ hfc, hev, hangup_heap_composed,
        hupd_other _ _ _ _ hrr]
      exact hnh k rr hk2
  · refine ⟨?_, ?_, ?_⟩
    · rw [handleEvent_some_state s msg h hh rf _ _ hfc, hev, hangup_calls_composed]
      simp
    · intro c hc hch2 hu2
      rw [handleEvent_some_cbs s msg h hh rf _ _ hfc, hev] at hc
      rw [handleEvent_some_state s msg h hh rf _ _ hfc, hev]
      exact hangup_cb_chanKey_deleted _ h rf msg _ _ _ c hc hch2 hu2
    · intro k rr hk
      rw [handleEvent_some_state s msg h hh rf _ _ hfc, hev, hangup_calls_composed] at hk
      obtain ⟨hc1, hc2, hk2⟩ := ite_chain_some hk
      have hrr : rr ≠ rf := by
        intro hrfeq
        subst hrfeq
        have hkeq := huniq k (getStr msg "channel" ++ ":" ++ getStr msg "uid") rr hk2 hfind
        rw [if_pos hch, if_pos hu] at hc1
        exact hc1 ⟨hkeq, hch, hu⟩
      rw [handleEvent_some_state s msg h hh rf _ _ hfc, hev, hangup_heap_composed,
        hupd_other _ _ _ _ hrr]
      exact hnh k rr hk2
  · refine ⟨?_, ?_, ?_⟩
    · rw [handleEvent_some_state s msg h hh s.nextRef _ _ hfc, hev, hangup_calls_composed]
      simp
    · intro c hc hch2 hu2
      rw [handleEvent_some_cbs s msg h hh s.nextRef _ _ hfc, hev] at hc
      rw [handleEvent_some_state s msg h hh s.nextRef _ _ hfc, hev]
      exact hangup_cb_chanKey_deleted _ h s.nextRef msg _ _ _ c hc hch2 hu2
    · intro k rr hk
      rw [handleEvent_some_state s msg h hh s.nextRef _ _ hfc, hev, hangup_calls_composed] at hk
      obtain ⟨hc1, hc2, hk2⟩ := ite_chain_some hk
      simp only [] at hk2
      rw [rupd_other _ _ _ _ hc2] at hk2
      have hrr : rr ≠ s.nextRef := by
        have := hb k rr hk2
        omega
      rw [handleEvent_some_state s msg h hh s.nextRef _ _ hfc, hev, hangup_heap_composed,
        hupd_other _ _ _ _ hrr]
      simp only []
      rw [hupd_other _ _ _ _ hrr]
      exact hnh k rr hk2
  · refine ⟨?_, ?_, ?_⟩
    · rw [handleEvent_none_fc s msg h hh _ _ hfc]
      exact hn0
    · intro c hc hch2 hu2
      rw [handleEvent_none_fc s msg h hh _ _ hfc] at hc
      exact absurd hc (by simp)
    · intro k rr hk
      rw [handleEvent_none_fc s msg h hh _ _ hfc] at hk
      rw [handleEvent_none_fc s msg h hh _ _ hfc]
      exact hnh k rr hk

/-- Witness for C3: a hangup event for the registered call C1. -/
theorem hangup_event_removes_both_keys_witness :
    sampleClient.handler = some { claimIncoming := true, hasDTMF := false } ∧
    getStr hangupC1Msg "event" = "call_hangup" ∧
    UniqueRef sampleClient ∧ RefsBounded sampleClient ∧ NoHangup sampleClient ∧
    ((handleEvent sampleClient hangupC1Msg).1.calls (getStr hangupC1Msg "callid") = none ∧
      (∀ c, CB.onCallHangup c ∈ (handleEvent sampleClient hangupC1Msg).2.1 →
        c.Channel ≠ "" → c.UID ≠ "" →
        (handleEvent sampleClient hangupC1Msg).1.calls (c.Channel ++ ":" ++ c.UID) = none) ∧
      NoHangup (handleEvent sampleClient hangupC1Msg).1) := by
  have fkey : ∀ k r, sampleClient.calls k = some r → k = "C1" ∧ r = 0 := by
    intro k r hkk
    by_cases e : k = "C1"
    · subst e
      have hv : sampleClient.calls "C1" = some 0 := rfl
      rw [hv] at hkk
      exact ⟨rfl, by simpa using hkk.symm⟩
    · have hv : sampleClient.calls k = none := by
        simp [sampleClient, NewClient, rupd, e]
      rw [hv] at hkk
      exact absurd hkk (by simp)
  have huniq : UniqueRef sampleClient := by
    intro k1 k2 r h1 h2
    rw [(fkey k1 r h1).1, (fkey k2 r h2).1]
  have hb : RefsBounded sampleClient := by
    intro k r hk
    have := (fkey k r hk).2
    subst this
    decide
  have hnh : NoHangup sampleClient := by
    intro k r hk
    have := (fkey k r hk).2
    subst this
    decide
  exact ⟨rfl, rfl, huniq, hb, hnh,
    hangup_event_removes_both_keys sampleClient hangupC1Msg _ rfl rfl huniq hb hnh⟩

/-- Claim C4: Dial pre-inserts a provisional record under channel:uid with
state ringing, direction outbound and the caller's appid; the provisional
key is gone in every exit path; on send error, connection loss or a reply
without a call id no other key changes; and a reply carrying a call id
promotes the record under the durable call-id key. -/
theorem dial_provisional_lifecycle (s : ClientState) (params : DialParams) :
    ((dialPreInsert s params).calls (dialChanKey params) = some s.nextRef ∧
      (dialPreInsert s params).heap s.nextRef =
        { CallID := "", State := "ringing", Direction := "outbound",
          From := params.From, To := params.To, Channel := params.Channel,
          UID := params.UID, AppID := params.AppID }) ∧
    (∀ outcome, (Dial s params outcome).1.calls (dialChanKey params) = none) ∧
    (∀ e k, k ≠ dialChanKey params →
      (Dial s params (CmdOutcome.sendErr e)).1.calls k = s.calls k ∧
      (Dial s params CmdOutcome.lost).1.calls k = s.calls k) ∧
    (∀ resp k, dialRespCallID resp = "" → k ≠ dialChanKey params →
      (Dial s params (CmdOutcome.reply resp)).1.calls k = s.calls k) ∧
    (∀ resp, dialRespCallID resp ≠ "" → dialRespCallID resp ≠ dialChanKey params →
      (Dial s params (CmdOutcome.reply resp)).1.calls (dialRespCallID resp) = some s.nextRef ∧
      ((Dial s params (CmdOutcome.reply resp)).1.heap s.nextRef).CallID = dialRespCallID resp ∧
      (Dial s params (CmdOutcome.reply resp)).2
        = Except.ok { Success := dialRespSuccess resp, CallID := dialRespCallID resp, Data := resp }) := by
  refine ⟨⟨by simp [dialPreInsert], by simp [dialPreInsert]⟩, ?_, ?_, ?_, ?_⟩
  · intro outcome
    cases outcome <;> simp [Dial]
  · intro e k hk
    constructor <;> simp [Dial, dialPreInsert, rupd, hk]
  · intro resp k hresp hk
    simp [Dial, hresp, dialPreInsert, rupd, hk]
  · intro resp hresp hne
    refine ⟨?_, ?_, ?_⟩
    · simp [Dial, hresp, dialPreInsert, rupd, hne]
    · simp [Dial, hresp, dialPreInsert, rupd, hupd]
    · simp [Dial]

/-- Claim C7: Hangup sends endcall when the call's direction is outbound and
hangup otherwise; an error string in the reply is surfaced and the record is
retained (as it is on send error or connection loss); on success the record
is deleted from the registry. -/
theorem hangup_operation_spec (s : ClientState) (callid : String) :
    (∀ ref, s.calls callid = some ref → (s.heap ref).Direction = "outbound" →
      hangupAction s callid = "endcall") ∧
    (∀ ref, s.calls callid = some ref → (s.heap ref).Direction ≠ "outbound" →
      hangupAction s callid = "hangup") ∧
    (s.calls callid = none → hangupAction s callid = "hangup") ∧
    getStr (hangupMsg s callid) "action" = hangupAction s callid ∧
    (∀ e, Hangup s callid (CmdOutcome.sendErr e) = (s, some e)) ∧
    Hangup s callid CmdOutcome.lost = (s, some "connection lost") ∧
    (∀ resp e, getStrOk resp "error" = some e →
      Hangup s callid (CmdOutcome.reply resp) = (s, some e)) ∧
    (∀ resp, getStrOk resp "error" = none →
      (Hangup s callid (CmdOutcome.reply resp)).2 = none ∧
      (Hangup s callid (CmdOutcome.reply resp)).1.calls callid = none ∧
      ∀ k, k ≠ callid → (Hangup s callid (CmdOutcome.reply resp)).1.calls k = s.calls k) := by
  refine ⟨?_, ?_, ?_, rfl, fun e => rfl, rfl, ?_, ?_⟩
  · intro ref href hdir
    simp [hangupAction, href, hdir]
  · intro ref href hdir
    simp [hangupAction, href, hdir]
  · intro href
    simp [hangupAction, href]
  · intro resp e herr
    simp [Hangup, herr]
  · intro resp herr
    refine ⟨?_, ?_, ?_⟩
    · simp [Hangup, herr]
    · simp [Hangup, herr]
    · intro k hk
      simp [Hangup, herr, rupd, hk]

/-- Witness for C4: a concrete dial whose reply promotes the record. -/
theorem dial_provisional_lifecycle_witness :
    dialRespCallID dialReplyOK ≠ "" ∧
    dialRespCallID dialReplyOK ≠ dialChanKey sampleDialParams ∧
    (Dial NewClient sampleDialParams (CmdOutcome.reply dialReplyOK)).1.calls
      (dialRespCallID dialReplyOK) = some NewClient.nextRef ∧
    (Dial NewClient sampleDialParams (CmdOutcome.reply dialReplyOK)).1.calls
      (dialChanKey sampleDialParams) = none := by
  have h := dial_provisional_lifecycle NewClient sampleDialParams
  have h1 : dialRespCallID dialReplyOK ≠ "" := by decide
  have h2 : dialRespCallID dialReplyOK ≠ dialChanKey sampleDialParams := by decide
  exact ⟨h1, h2, (h.2.2.2.2 dialReplyOK h1 h2).1, h.2.1 (CmdOutcome.reply dialReplyOK)⟩

/-- Witness for C7: hanging up the registered outbound call C1. -/
theorem hangup_operation_spec_witness :
    sampleClient.calls "C1" = some 0 ∧
    (sampleClient.heap 0).Direction = "outbound" ∧
    hangupAction sampleClient "C1" = "endcall" ∧
    getStrOk hangupReplyOK "error" = none ∧
    (Hangup sampleClient "C1" (CmdOutcome.reply hangupReplyOK)).1.calls "C1" = none := by
  have h := hangup_operation_spec sampleClient "C1"
  refine ⟨rfl, rfl, ?_, rfl, ?_⟩
  · exact h.1 0 rfl rfl
  · exact (h.2.2.2.2.2.2.2 hangupReplyOK rfl).2.1

/-- A second Close on an already-closed client changes nothing, returns no
error, and closes nothing. -/
theorem close_closed (t : ClientState) (e : Option String)
    (h0 : t.connected = false) (h1 : t.conn = false) (h2 : t.doneClosed = true)
    (h3 : t.pending = []) :
    Close t e = { state := t, err := none, closedDone := false, drained := [] } := by
  cases t
  simp only [] at h0 h1 h2 h3
  subst h0
  subst h1
  subst h2
  subst h3
  rfl

/-- Iterating Close on an already-closed client is the identity. -/
theorem closeRuns_closed (t : ClientState)
    (h0 : t.connected = false) (h1 : t.conn = false) (h2 : t.doneClosed = true)
    (h3 : t.pending = []) :
    ∀ (n : Nat) (es : Nat → Option String),
      closeRuns es n t = (t, List.replicate n (none, false)) := by
  intro n
  induction n with
  | zero => intro es; rfl
  | succ m ih =>
    intro es
    simp only [closeRuns]
    rw [close_closed t (es 0) h0 h1 h2 h3]
    rw [ih (fun i => es (i + 1))]
    rfl

/-- Claim C9: Close is idempotent — N successive invocations (N at least 1)
leave the client exactly as one invocation does (connected flag cleared,
done signal closed, pending table swept, transport cleared), the done signal
is closed exactly once across the N calls, and every invocation after the
first returns no error. -/
theorem close_idempotent (s : ClientState) (es : Nat → Option String) (n : Nat)
    (hn : 1 ≤ n) :
    (closeRuns es n s).1 = (Close s (es 0)).state ∧
    (closeRuns es n s).1.connected = false ∧
    (closeRuns es n s).1.doneClosed = true ∧
    (closeRuns es n s).1.pending = [] ∧
    (closeRuns es n s).1.conn = false ∧
    ((closeRuns es n s).2.map Prod.snd).count true = (if s.doneClosed then 0 else 1) ∧
    (∀ p ∈ (closeRuns es n s).2.tail, p.1 = none) := by
  obtain ⟨m, rfl⟩ : ∃ m, n = m + 1 := ⟨n - 1, by omega⟩
  have hrest := closeRuns_closed (Close s (es 0)).state rfl rfl rfl rfl m (fun i => es (i + 1))
  have hrun : closeRuns es (m + 1) s
      = ((Close s (es 0)).state,
         ((Close s (es 0)).err, (Close s (es 0)).closedDone) :: List.replicate m (none, false)) := by
    simp only [closeRuns]
    rw [hrest]
  rw [hrun]
  refine ⟨rfl, rfl, rfl, rfl, rfl, ?_, ?_⟩
  · have hcd : (Close s (es 0)).closedDone = !s.doneClosed := rfl
    rw [List.map_cons, List.map_replicate, hcd]
    cases hd : s.doneClosed <;>
      simp [List.count_cons, List.count_replicate]
  · intro p hp
    simp only [List.tail_cons] at hp
    rw [List.eq_of_mem_replicate hp]

/-- Witness for C9: three successive Closes on a live client. -/
theorem close_idempotent_witness :
    1 ≤ 3 ∧
    ((closeRuns (fun _ => none) 3 sampleLiveClient).1
        = (Close sampleLiveClient none).state ∧
      (closeRuns (fun _ => none) 3 sampleLiveClient).1.connected = false ∧
      (closeRuns (fun _ => none) 3 sampleLiveClient).1.doneClosed = true ∧
      (closeRuns (fun _ => none) 3 sampleLiveClient).1.pending = [] ∧
      (closeRuns (fun _ => none) 3 sampleLiveClient).1.conn = false ∧
      (((closeRuns (fun _ => none) 3 sampleLiveClient).2.map Prod.snd).count true
        = if sampleLiveClient.doneClosed then 0 else 1) ∧
      (∀ p ∈ ((closeRuns (fun _ => none) 3 sampleLiveClient).2.tail : List (Option String × Bool)),
        p.1 = none)) :=
  ⟨by decide, close_idempotent sampleLiveClient (fun _ => none) 3 (by decide)⟩

end Telephony
